import Mathlib

/-!
Shallow embedding of `speechbrain/lobes/models/transformer/Branchformer.py`
(Branchformer encoder: dual-branch layers, layer-drop stack orchestration).

Tensors, masks, positional embeddings and attention artifacts are abstract
type parameters `T`, `M`, `P`, `A`: the claims under study are about control
flow, attribute wiring and shape metadata, never about the numeric contents
of a tensor, so the branch computations appear as opaque functions.  The
layer-drop probability is modelled as a rational number and the stack's
random source as a stream `Nat -> Rat` of uniform draws; a forward call
reports how many values it consumed from that stream.
-/

namespace Branchformer

/-- Pointwise tensor operators used by a Branchformer layer: residual
addition (`x + y`) and concatenation along the feature axis
(`torch.cat [x1, x2] dim=-1`). -/
structure TensorOps (T : Type) where
  add : T → T → T
  cat : T → T → T

/-- Error arising when `BranchformerEncoderLayer.forward` touches an
attribute that `__init__` never assigned (Python raises AttributeError at
that access): with an attention type outside the recognized set the
dispatch chain falls through without assigning `self.mha_layer` or
`self.merge_proj`. -/
inductive LayerError where
  | missingAttribute (name : String)
deriving DecidableEq, Repr

/-- Shape metadata of the merge projection constructed by
`BranchformerEncoderLayer.__init__`: either
`torch.nn.Linear(d_model * 2, d_model)` (attention-like strategies) or a
`VanillaNN` whose input feature width is
`local_proj_out_dim + summary_out_dim` and whose per-block neuron counts
are `summary_hid_dim + [d_model]` (the SummaryMixing strategy). -/
inductive MergeSpec where
  | linear (inWidth outWidth : ℕ)
  | vanillaNN (inWidth : ℕ) (dnn_neurons : List ℕ)
deriving DecidableEq, Repr

/-- Input feature width of a merge projection. -/
def MergeSpec.inWidth : MergeSpec → ℕ
  | .linear i _ => i
  | .vanillaNN i _ => i

/-- Output feature width of a merge projection (for a `VanillaNN`, the
neuron count of its last block). -/
def MergeSpec.outWidth : MergeSpec → ℕ
  | .linear _ o => o
  | .vanillaNN _ ns => ns.getLastD 0

/-- One Branchformer encoder layer (`BranchformerEncoderLayer`) after
construction.  Attributes that `__init__` assigns only on some dispatch
paths are `Option`s (`none` models a Python attribute that was never
set).  `mha_qkv` and `mha_sm` together model `self.mha_layer`: the former
is the `(query, key, value, attn_mask, key_padding_mask, pos_embs)` call
convention used for every attention type except SummaryMixing, the latter
the `(x, attention_mask)` convention used for SummaryMixing.
`merge_spec` records the constructed merge projection's declared feature
widths. -/
structure BranchformerEncoderLayer (T A M P : Type) where
  attention_type : String
  mha_qkv : Option (T → T → T → Option M → Option M → Option P → T × Option A)
  mha_sm : Option (T → Option M → T)
  merge_proj : Option (T → T)
  merge_spec : Option MergeSpec
  norm_mhsa : Option (T → T)
  norm_conv : T → T
  convolution_branch : T → T
  dropout : T → T

/-- Embedding of `BranchformerEncoderLayer._forward_cnn_branch`: normalize, run the
convolution branch, apply dropout.  Its only input is the sequence
tensor - the source signature takes no mask argument. -/
def BranchformerEncoderLayer.forward_cnn_branch
    (l : BranchformerEncoderLayer T A M P) (x : T) : T :=
  l.dropout (l.convolution_branch (l.norm_conv x))

/-- Embedding of `BranchformerEncoderLayer._forward_mha_branch`: normalize with
`norm_mhsa`, invoke the global-mixing cell (SummaryMixing call convention
when `attention_type == "SummaryMixing"`, query/key/value convention
otherwise; SummaryMixing yields no attention artifact), apply dropout. -/
def BranchformerEncoderLayer.forward_mha_branch
    (l : BranchformerEncoderLayer T A M P) (x : T)
    (src_mask src_key_padding_mask : Option M) (pos_embs : Option P) :
    Except LayerError (T × Option A) :=
  match l.norm_mhsa with
  | none => .error (.missingAttribute "norm_mhsa")
  | some nrm =>
    if l.attention_type = "SummaryMixing" then
      match l.mha_sm with
      | none => .error (.missingAttribute "mha_layer")
      | some f => .ok (l.dropout (f (nrm x) src_key_padding_mask), none)
    else
      match l.mha_qkv with
      | none => .error (.missingAttribute "mha_layer")
      | some f =>
        let y := nrm x
        let r := f y y y src_mask src_key_padding_mask pos_embs
        .ok (l.dropout r.1, r.2)

/-- Embedding of `BranchformerEncoderLayer.forward`.  With `attention_type ==
"cnnonly"`: residual-add the convolution branch, attention artifact
`None`, no merge projection involved.  Otherwise: run the attention
branch and the convolution branch on the input, concatenate, merge,
dropout, residual-add. -/
def BranchformerEncoderLayer.forward (ops : TensorOps T)
    (l : BranchformerEncoderLayer T A M P) (x : T)
    (src_mask src_key_padding_mask : Option M) (pos_embs : Option P) :
    Except LayerError (T × Option A) :=
  if l.attention_type = "cnnonly" then
    .ok (ops.add x (l.forward_cnn_branch x), none)
  else
    match l.forward_mha_branch x src_mask src_key_padding_mask pos_embs with
    | .error e => .error e
    | .ok (x1, self_attn) =>
      match l.merge_proj with
      | none => .error (.missingAttribute "merge_proj")
      | some mp =>
        .ok (ops.add x (l.dropout (mp (ops.cat x1 (l.forward_cnn_branch x)))),
             self_attn)

/-- The externally constructed sub-modules a layer's `__init__` wires
together: the five global-mixing cells (their internals are out of scope),
`torch.nn.Linear` and `VanillaNN` constructors for the merge projection
(taking their declared widths), `LayerNorm`, the constructed
`ConvolutionBranch`, and dropout. -/
structure LayerEnv (T A M P : Type) where
  multiheadAttention : T → T → T → Option M → Option M → Option P → T × Option A
  relPosMHAXL : T → T → T → Option M → Option M → Option P → T × Option A
  hyperMixing : T → T → T → Option M → Option M → Option P → T × Option A
  fastattention : T → T → T → Option M → Option M → Option P → T × Option A
  summaryMixing : T → Option M → T
  linear : ℕ → ℕ → (T → T)
  vanillaNN : ℕ → List ℕ → (T → T)
  layerNorm : ℕ → (T → T)
  convolutionBranch : T → T
  dropoutF : T → T

/-- The shape-relevant part of a `BranchformerEncoderLayer` configuration
(the remaining constructor arguments - head count, kernel size,
activations, dropout rate, mode - only parameterize the external
sub-modules and never influence the claims under study). -/
structure LayerConfig where
  d_model : ℕ
  local_proj_out_dim : ℕ
  summary_out_dim : ℕ
  summary_hid_dim : List ℕ
  attention_type : String
deriving Repr

/-- The attention-type tags the `__init__` dispatch chain recognizes. -/
def validAttentionTypes : List String :=
  ["regularMHA", "RelPosMHAXL", "hypermixing", "SummaryMixing",
   "fastattention", "cnnonly"]

/-- Embedding of `BranchformerEncoderLayer.__init__`.  The convolution branch, its
normalization and the dropout are always constructed.  Unless the
attention type is `cnnonly`, the dispatch chain additionally assigns
`mha_layer` and `merge_proj` for each recognized tag - the chain has no
`else` arm, so an unrecognized tag assigns neither - and then assigns
`norm_mhsa`. -/
def BranchformerEncoderLayer.init (env : LayerEnv T A M P)
    (cfg : LayerConfig) : BranchformerEncoderLayer T A M P :=
  let base : BranchformerEncoderLayer T A M P :=
    { attention_type := cfg.attention_type
      mha_qkv := none
      mha_sm := none
      merge_proj := none
      merge_spec := none
      norm_mhsa := none
      norm_conv := env.layerNorm cfg.d_model
      convolution_branch := env.convolutionBranch
      dropout := env.dropoutF }
  if cfg.attention_type = "cnnonly" then base
  else
    let withGlobal : BranchformerEncoderLayer T A M P :=
      if cfg.attention_type = "regularMHA" then
        { base with
            mha_qkv := some env.multiheadAttention
            merge_proj := some (env.linear (cfg.d_model * 2) cfg.d_model)
            merge_spec := some (.linear (cfg.d_model * 2) cfg.d_model) }
      else if cfg.attention_type = "RelPosMHAXL" then
        { base with
            mha_qkv := some env.relPosMHAXL
            merge_proj := some (env.linear (cfg.d_model * 2) cfg.d_model)
            merge_spec := some (.linear (cfg.d_model * 2) cfg.d_model) }
      else if cfg.attention_type = "hypermixing" then
        { base with
            mha_qkv := some env.hyperMixing
            merge_proj := some (env.linear (cfg.d_model * 2) cfg.d_model)
            merge_spec := some (.linear (cfg.d_model * 2) cfg.d_model) }
      else if cfg.attention_type = "SummaryMixing" then
        { base with
            mha_sm := some env.summaryMixing
            merge_proj := some (env.vanillaNN
              (cfg.local_proj_out_dim + cfg.summary_out_dim)
              (cfg.summary_hid_dim ++ [cfg.d_model]))
            merge_spec := some (.vanillaNN
              (cfg.local_proj_out_dim + cfg.summary_out_dim)
              (cfg.summary_hid_dim ++ [cfg.d_model])) }
      else if cfg.attention_type = "fastattention" then
        { base with
            mha_qkv := some env.fastattention
            merge_proj := some (env.linear (cfg.d_model * 2) cfg.d_model)
            merge_spec := some (.linear (cfg.d_model * 2) cfg.d_model) }
      else base
    { withGlobal with norm_mhsa := some (env.layerNorm cfg.d_model) }

/-- Embedding of `BranchformerEncoderLayer.__init__` with an explicit error channel:
the body's strategy dispatch contains no `raise`, so construction always
returns the assembled layer. -/
def BranchformerEncoderLayer.initE (env : LayerEnv T A M P)
    (cfg : LayerConfig) :
    Except LayerError (BranchformerEncoderLayer T A M P) :=
  .ok (BranchformerEncoderLayer.init env cfg)

/-- The layer list built by `BranchformerEncoder.__init__`: one
`BranchformerEncoderLayer` per index, each from the same configuration. -/
def BranchformerEncoder.initLayers (env : LayerEnv T A M P)
    (cfg : LayerConfig) (num_layers : ℕ) :
    List (BranchformerEncoderLayer T A M P) :=
  (List.range num_layers).map (fun _ => BranchformerEncoderLayer.init env cfg)

/-- Modelled from the spec: the feature widths of the two branch outputs
that are concatenated in front of the merge projection.  The attention
cells themselves live outside the analyzed file, so their output widths
come from the spec's contract: every attention-like global-mixing cell
maps `(B,T,d_model)` tensors to `(B,T,d_model)` tensors, and the
convolution branch does too, so both concatenated widths are `d_model`;
for the SummaryMixing strategy the analyzed file's own docstrings state
that the local projection branch output (width `local_proj_out_dim`) is
concatenated with the summary branch output (width `summary_out_dim`). -/
def branchOutWidths (cfg : LayerConfig) : ℕ × ℕ :=
  if cfg.attention_type = "SummaryMixing" then
    (cfg.local_proj_out_dim, cfg.summary_out_dim)
  else (cfg.d_model, cfg.d_model)

/-- Error raised by `BranchformerEncoder.forward` before the layer loop:
the leading `assert dynchunktrain_config is None` (AssertionError) and the
`raise ValueError` for a missing mandatory positional embedding. -/
inductive EncoderError where
  | dynChunkUnsupported
  | posEmbsMandatory
deriving DecidableEq, Repr

/-- Return value of `BranchformerEncoder.forward`: the normalized output,
the list of per-executed-layer attention artifacts (entries are `none` for
branch strategies that produce no attention weights), and - when
`output_hidden_states` is set - the hidden-state trace starting with the
raw input. -/
structure EncoderOutput (T A : Type) where
  output : T
  attention_lst : List (Option A)
  hidden_state_lst : Option (List T)
deriving DecidableEq, Repr

/-- The Branchformer encoder stack (`BranchformerEncoder`): an ordered list
of layer forward functions (each taking the running tensor, the two
optional masks and the optional positional embeddings), the single shared
final `LayerNorm` (eps 1e-6 in the source), the configured attention type,
the layer-drop probability and the hidden-state capture flag. -/
structure BranchformerEncoder (T A M P : Type) where
  layers : List (T → Option M → Option M → Option P → T × Option A)
  norm : T → T
  attention_type : String
  layerdrop_prob : ℚ
  output_hidden_states : Bool

/-- The layer-execution condition of the source's loop:
`not self.training or self.layerdrop_prob == 0.0 or keep_probs[i] > self.layerdrop_prob`. -/
def layerExecutes (training : Bool) (layerdrop_prob : ℚ)
    (keep_probs : Option (List ℚ)) (i : ℕ) : Bool :=
  !training || decide (layerdrop_prob = 0)
    || decide ((keep_probs.getD []).getD i 0 > layerdrop_prob)

/-- The layer loop of `BranchformerEncoder.forward`: starting at layer
index `i`, run each remaining layer whose execution condition holds on the
running tensor, collecting the attention artifacts and the post-layer
hidden states of the layers that executed. -/
def encoderLoop (exec : ℕ → Bool) :
    ℕ → List (T → T × Option A) → T → T × List (Option A) × List T
  | _, [], x => (x, [], [])
  | i, step :: rest, x =>
    if exec i then
      let r := step x
      let k := encoderLoop exec (i + 1) rest r.1
      (k.1, r.2 :: k.2.1, r.1 :: k.2.2)
    else
      encoderLoop exec (i + 1) rest x

/-- The per-call layer step functions: each stack layer applied to the
call's masks and positional embeddings (these are constant through the
loop). -/
def stepsOf (m : BranchformerEncoder T A M P)
    (src_mask src_key_padding_mask : Option M) (pos_embs : Option P) :
    List (T → T × Option A) :=
  m.layers.map (fun f => fun x => f x src_mask src_key_padding_mask pos_embs)

/-- The `keep_probs` value: when `layerdrop_prob > 0` the call draws one uniform
value per layer from the stack's random source
(`self.rng.random(len(self.layers))`); otherwise `keep_probs = None`. -/
def keepProbsOf (m : BranchformerEncoder T A M P) (rng : ℕ → ℚ) :
    Option (List ℚ) :=
  if 0 < m.layerdrop_prob then some ((List.range m.layers.length).map rng)
  else none

/-- Number of values a forward call consumes from the stack's random
source: one per layer when `layerdrop_prob > 0`, none otherwise. -/
def drawCountOf (m : BranchformerEncoder T A M P) : ℕ :=
  if 0 < m.layerdrop_prob then m.layers.length else 0

/-- Packaging of the loop results done after the loop: apply the shared
final normalization to the last produced tensor and, when
`output_hidden_states` is set, prepend the raw input to the hidden-state
trace.  (The source only materializes `hidden_state_lst` when the flag is
set; collecting it unconditionally and discarding it here is observably
identical.) -/
def encoderPack (m : BranchformerEncoder T A M P) (src : T)
    (r : T × List (Option A) × List T) : EncoderOutput T A :=
  { output := m.norm r.1
    attention_lst := r.2.1
    hidden_state_lst :=
      if m.output_hidden_states then some (src :: r.2.2) else none }

/-- Embedding of `BranchformerEncoder.forward`.  In source order: assert that no
dynamic-chunk-training config was passed; raise if the configured
attention type is `RelPosMHAXL` and no positional embeddings were given;
draw `keep_probs` when `layerdrop_prob > 0`; run the layer loop; apply the
final normalization and return.  The returned natural number counts the
values drawn from the random source during the call.  The streaming
configuration's contents are never inspected by the source (only `is None`
is tested), hence `Option Unit`. -/
def BranchformerEncoder.forward (m : BranchformerEncoder T A M P)
    (training : Bool) (rng : ℕ → ℚ) (src : T)
    (src_mask src_key_padding_mask : Option M) (pos_embs : Option P)
    (dynchunktrain_config : Option Unit) :
    Except EncoderError (EncoderOutput T A × ℕ) :=
  if dynchunktrain_config.isSome then
    .error .dynChunkUnsupported
  else if m.attention_type == "RelPosMHAXL" && pos_embs.isNone then
    .error .posEmbsMandatory
  else
    .ok (encoderPack m src
          (encoderLoop
            (layerExecutes training m.layerdrop_prob (keepProbsOf m rng)) 0
            (stepsOf m src_mask src_key_padding_mask pos_embs) src),
         drawCountOf m)

/-- Reference semantics following the spec's words: every layer runs
exactly once, in index order, each layer's output feeding the next;
returns the final tensor, the attention artifacts in order, and the
post-layer hidden states in order. -/
def specSequentialRun :
    List (T → T × Option A) → T → T × List (Option A) × List T
  | [], x => (x, [], [])
  | step :: rest, x =>
    let r := step x
    let k := specSequentialRun rest r.1
    (k.1, r.2 :: k.2.1, r.1 :: k.2.2)

/-- The sublist of layers selected by an index predicate, counting indices
from `i`. -/
def selectFrom (exec : ℕ → Bool) : ℕ → List β → List β
  | _, [] => []
  | i, a :: as =>
    if exec i then a :: selectFrom exec (i + 1) as
    else selectFrom exec (i + 1) as

/-- Reference semantics following the spec's words for layer drop: the
layers whose draw keeps them are run sequentially, in index order, and the
skipped layers contribute nothing at all (stochastic depth: a skipped
layer never sees the tensor). -/
def specSelectedRun (exec : ℕ → Bool)
    (steps : List (T → T × Option A)) (x : T) :
    T × List (Option A) × List T :=
  specSequentialRun (selectFrom exec 0 steps) x

/-! ### Lemmas about the loop -/

theorem encoderLoop_eq_selected (exec : ℕ → Bool)
    (ls : List (T → T × Option A)) :
    ∀ (i : ℕ) (x : T),
      encoderLoop exec i ls x = specSequentialRun (selectFrom exec i ls) x := by
  induction ls with
  | nil => intro i x; rfl
  | cons f fs ih =>
    intro i x
    by_cases h : exec i = true
    · simp only [encoderLoop, selectFrom, h, if_true, specSequentialRun, ih]
    · simp only [Bool.not_eq_true] at h
      simp only [encoderLoop, selectFrom, h, Bool.false_eq_true, if_false, ih]

theorem selectFrom_of_forall_true (exec : ℕ → Bool)
    (h : ∀ j, exec j = true) (ls : List β) : ∀ i, selectFrom exec i ls = ls := by
  induction ls with
  | nil => intro i; rfl
  | cons a as ih => intro i; simp only [selectFrom, h i, if_true, ih]

theorem selectFrom_of_forall_false (exec : ℕ → Bool) (ls : List β) :
    ∀ i, (∀ j, j < ls.length → exec (i + j) = false) →
      selectFrom exec i ls = [] := by
  induction ls with
  | nil => intro i _; rfl
  | cons a as ih =>
    intro i h
    have h0 : exec i = false := by simpa using h 0 (by simp)
    simp only [selectFrom, h0, Bool.false_eq_true, if_false]
    exact ih (i + 1) (fun j hj => by
      have := h (j + 1) (by simpa using Nat.succ_lt_succ hj)
      simpa [Nat.add_assoc, Nat.add_comm 1 j] using this)

theorem selectFrom_congr (exec exec' : ℕ → Bool) (ls : List β) :
    ∀ i, (∀ j, j < ls.length → exec (i + j) = exec' (i + j)) →
      selectFrom exec i ls = selectFrom exec' i ls := by
  induction ls with
  | nil => intro i _; rfl
  | cons a as ih =>
    intro i h
    have h0 : exec i = exec' i := by simpa using h 0 (by simp)
    have hrest := ih (i + 1) (fun j hj => by
      have := h (j + 1) (by simpa using Nat.succ_lt_succ hj)
      simpa [Nat.add_assoc, Nat.add_comm 1 j] using this)
    simp only [selectFrom, h0, hrest]

theorem specSequentialRun_attns_length (ls : List (T → T × Option A)) :
    ∀ x : T, (specSequentialRun ls x).2.1.length = ls.length := by
  induction ls with
  | nil => intro x; rfl
  | cons f fs ih => intro x; simp [specSequentialRun, ih]

theorem specSequentialRun_hiddens_length (ls : List (T → T × Option A)) :
    ∀ x : T, (specSequentialRun ls x).2.2.length = ls.length := by
  induction ls with
  | nil => intro x; rfl
  | cons f fs ih => intro x; simp [specSequentialRun, ih]

theorem mem_selectFrom (exec : ℕ → Bool) (ls : List β) :
    ∀ i b, b ∈ selectFrom exec i ls → b ∈ ls := by
  induction ls with
  | nil => intro i b h; simp [selectFrom] at h
  | cons a as ih =>
    intro i b h
    by_cases he : exec i = true
    · simp only [selectFrom, he, if_true, List.mem_cons] at h
      rcases h with h | h
      · exact h ▸ List.mem_cons_self a as
      · exact List.mem_cons_of_mem a (ih (i + 1) b h)
    · simp only [Bool.not_eq_true] at he
      simp only [selectFrom, he, Bool.false_eq_true, if_false] at h
      exact List.mem_cons_of_mem a (ih (i + 1) b h)

theorem specSequentialRun_hiddens_shape {S : Type} (shape : T → S)
    (ls : List (T → T × Option A))
    (hpres : ∀ f ∈ ls, ∀ t : T, shape (f t).1 = shape t) :
    ∀ x : T, ∀ h ∈ (specSequentialRun ls x).2.2, shape h = shape x := by
  induction ls with
  | nil => intro x h hmem; simp [specSequentialRun] at hmem
  | cons f fs ih =>
    intro x h hmem
    simp only [specSequentialRun, List.mem_cons] at hmem
    have hf : shape (f x).1 = shape x := hpres f (List.mem_cons_self f fs) x
    rcases hmem with hmem | hmem
    · rw [hmem, hf]
    · have := ih (fun g hg t => hpres g (List.mem_cons_of_mem f hg) t) (f x).1 h hmem
      rw [this, hf]

/-- Master reduction: whenever no streaming config is passed and the
mandatory-positional-embedding rule is satisfied, a forward call returns
exactly the selected-layer sequential run, packaged, together with the
number of random draws. -/
theorem forward_eq_selected (m : BranchformerEncoder T A M P)
    (training : Bool) (rng : ℕ → ℚ) (src : T)
    (src_mask src_key_padding_mask : Option M) (pos_embs : Option P)
    (hpe : m.attention_type = "RelPosMHAXL" → pos_embs.isSome = true) :
    m.forward training rng src src_mask src_key_padding_mask pos_embs none =
      .ok (encoderPack m src
            (specSelectedRun
              (layerExecutes training m.layerdrop_prob (keepProbsOf m rng))
              (stepsOf m src_mask src_key_padding_mask pos_embs) src),
           drawCountOf m) := by
  have hcond : (m.attention_type == "RelPosMHAXL" && pos_embs.isNone) = false := by
    by_cases h1 : m.attention_type = "RelPosMHAXL"
    · have h2 := hpe h1
      simp [h1, Option.isNone_eq_false_iff, Option.isSome_iff_exists] at h2 ⊢
      exact h2
    · simp [h1]
  rw [BranchformerEncoder.forward]
  simp only [Option.isSome_none, Bool.false_eq_true, if_false, hcond,
    specSelectedRun, encoderLoop_eq_selected]

theorem layerExecutes_of_not_training (p : ℚ) (kp : Option (List ℚ)) (i : ℕ) :
    layerExecutes false p kp i = true := by
  simp [layerExecutes]

theorem layerExecutes_of_zero (t : Bool) (kp : Option (List ℚ)) (i : ℕ) :
    layerExecutes t 0 kp i = true := by
  simp [layerExecutes]

theorem getD_range_map (f : ℕ → ℚ) {n j : ℕ} (h : j < n) :
    ((List.range n).map f).getD j 0 = f j := by
  rw [List.getD_eq_getElem?_getD, List.getElem?_map, List.getElem?_range h]
  rfl

theorem layerExecutes_train_pos (rng : ℕ → ℚ) (p : ℚ) (L : ℕ) (hpos : 0 < p)
    {j : ℕ} (hj : j < L) :
    layerExecutes true p (some ((List.range L).map rng)) j =
      decide (rng j > p) := by
  simp only [layerExecutes, Bool.not_true, Option.getD_some, Bool.false_or,
    getD_range_map rng hj, decide_eq_false hpos.ne', Bool.false_or]

/-- A Boolean helper: whether an `Except` value is a success. -/
def exceptIsOk : Except ε α → Bool
  | .ok _ => true
  | .error _ => false

/-! ### Concrete instances used by the witnesses and counterexamples -/

/-- Concrete tensor operators on naturals (addition, and an injective
pairing standing in for feature-axis concatenation). -/
def ops0 : TensorOps ℕ :=
  { add := fun a b => a + b
    cat := fun a b => 100 * a + b }

/-- Concrete external sub-modules on naturals. -/
def env0 : LayerEnv ℕ ℕ ℕ ℕ :=
  { multiheadAttention := fun q _ _ _ _ _ => (q + 1, some 1)
    relPosMHAXL := fun q _ _ _ _ _ => (q + 2, some 2)
    hyperMixing := fun q _ _ _ _ _ => (q + 3, some 3)
    fastattention := fun q _ _ _ _ _ => (q + 4, some 4)
    summaryMixing := fun x _ => x + 5
    linear := fun i o x => x + i + o
    vanillaNN := fun i ns x => x + i + ns.length
    layerNorm := fun _ x => x
    convolutionBranch := fun x => x * 2
    dropoutF := fun x => x }

/-- A concrete `cnnonly` layer on naturals. -/
def l0 : BranchformerEncoderLayer ℕ ℕ ℕ ℕ :=
  { attention_type := "cnnonly"
    mha_qkv := none
    mha_sm := none
    merge_proj := none
    merge_spec := none
    norm_mhsa := none
    norm_conv := fun x => x + 1
    convolution_branch := fun x => x * 2
    dropout := fun x => x + 5 }

/-- A concrete two-layer stack with layer drop disabled. -/
def mW1 : BranchformerEncoder ℕ ℕ ℕ ℕ :=
  { layers := [fun x _ _ _ => (x + 3, some 1), fun x _ _ _ => (x * 2, some 2)]
    norm := fun x => x + 100
    attention_type := "regularMHA"
    layerdrop_prob := 0
    output_hidden_states := true }

/-- A concrete one-layer stack with layer-drop probability 1/2. -/
def mC2 : BranchformerEncoder ℕ ℕ ℕ ℕ :=
  { layers := [fun x _ _ _ => (x + 1, some 0)]
    norm := fun x => x
    attention_type := "regularMHA"
    layerdrop_prob := mkRat 1 2
    output_hidden_states := false }

/-- A concrete one-layer stack with layer-drop probability 1/2 and
hidden-state capture enabled. -/
def mC4 : BranchformerEncoder ℕ ℕ ℕ ℕ :=
  { layers := [fun x _ _ _ => (x + 1, some 0)]
    norm := fun x => x
    attention_type := "regularMHA"
    layerdrop_prob := mkRat 1 2
    output_hidden_states := true }

/-- A concrete two-layer stack with layer-drop probability 1/2 and
hidden-state capture enabled. -/
def mW4 : BranchformerEncoder ℕ ℕ ℕ ℕ :=
  { layers := [fun x _ _ _ => (x + 1, some 1), fun x _ _ _ => (x + 2, some 2)]
    norm := fun x => x
    attention_type := "regularMHA"
    layerdrop_prob := mkRat 1 2
    output_hidden_states := true }

/-- A random stream whose first draw keeps a layer (1 > 1/2) and whose
later draws drop it (0 < 1/2). -/
def rngW4 : ℕ → ℚ := fun i => if i = 0 then 1 else 0

/-- A concrete stack configured with the `RelPosMHAXL` attention type. -/
def mW5 : BranchformerEncoder ℕ ℕ ℕ ℕ :=
  { layers := [fun x _ _ _ => (x + 1, some 0)]
    norm := fun x => x
    attention_type := "RelPosMHAXL"
    layerdrop_prob := 0
    output_hidden_states := false }

/-- A layer configuration with an unrecognized attention type. -/
def cfgBogus : LayerConfig :=
  { d_model := 4
    local_proj_out_dim := 2
    summary_out_dim := 3
    summary_hid_dim := [7]
    attention_type := "bogus" }

/-- A SummaryMixing layer configuration. -/
def cfgSM : LayerConfig :=
  { d_model := 4
    local_proj_out_dim := 2
    summary_out_dim := 3
    summary_hid_dim := [7]
    attention_type := "SummaryMixing" }

/-- A regular multi-head-attention layer configuration. -/
def cfgMHA : LayerConfig :=
  { d_model := 4
    local_proj_out_dim := 2
    summary_out_dim := 3
    summary_hid_dim := [7]
    attention_type := "regularMHA" }

/-! ### Claims -/

/-- C1: with `layerdrop_prob = 0` or training mode disabled, a forward
call (with no streaming config and the mandatory positional embeddings
supplied when required) executes every one of the `L` layers exactly once,
in index order - the result equals the sequential run of all layers - and
the returned output, attention list and hidden states are a deterministic
function of the input and the layer parameters: the right-hand side does
not mention the random stream `rng`, which is universally quantified. -/
theorem claimC1_all_layers_run_deterministically
    (m : BranchformerEncoder T A M P) (training : Bool) (rng : ℕ → ℚ)
    (src : T) (src_mask src_key_padding_mask : Option M) (pos_embs : Option P)
    (hdrop : training = false ∨ m.layerdrop_prob = 0)
    (hpe : m.attention_type = "RelPosMHAXL" → pos_embs.isSome = true) :
    m.forward training rng src src_mask src_key_padding_mask pos_embs none =
      .ok (encoderPack m src
            (specSequentialRun
              (stepsOf m src_mask src_key_padding_mask pos_embs) src),
           drawCountOf m) := by
  rw [forward_eq_selected m training rng src src_mask src_key_padding_mask
    pos_embs hpe]
  have hexec : ∀ j,
      layerExecutes training m.layerdrop_prob (keepProbsOf m rng) j = true := by
    intro j
    rcases hdrop with h | h
    · rw [h]; exact layerExecutes_of_not_training _ _ _
    · rw [h]; exact layerExecutes_of_zero _ _ _
  rw [specSelectedRun, selectFrom_of_forall_true _ hexec]

/-- C1 witness: a concrete two-layer stack with `layerdrop_prob = 0`, in
eval mode, runs both layers in order and returns the fully evaluated
deterministic result. -/
theorem claimC1_witness :
    mW1.forward false (fun _ => (0 : ℚ)) 2 none none (some 0) none =
      .ok ({ output := 110
             attention_lst := [some 1, some 2]
             hidden_state_lst := some [2, 5, 10] }, 0) := by
  have h := claimC1_all_layers_run_deterministically mW1 false
    (fun _ => (0 : ℚ)) 2 none none (some 0) (Or.inl rfl) (fun _ => rfl)
  rw [h]
  rfl

/-- C2 counterexample: the claim says that with training mode disabled no
random draw is made; but the source draws `keep_probs` whenever
`layerdrop_prob > 0` regardless of training mode.  On a one-layer stack
with `layerdrop_prob = 1/2` in eval mode, the forward call consumes 1
value from the random source, not 0. -/
theorem claimC2_counterexample :
    mC2.forward false (fun _ => (1 : ℚ)) 3 none none (none : Option ℕ) none =
      .ok ({ output := 4
             attention_lst := [some 0]
             hidden_state_lst := none }, 1) ∧ (1 : ℕ) ≠ 0 :=
  ⟨rfl, by decide⟩

/-- C2 (amended): a forward call draws one value per layer from the
random source whenever `layerdrop_prob > 0` - regardless of training
mode - and none when `layerdrop_prob = 0`; when the stack is training and
`layerdrop_prob > 0`, layer `i` executes iff its draw exceeds
`layerdrop_prob`, the executed layers running sequentially in index
order; and when the stack is not training or `layerdrop_prob = 0`, every
layer executes unconditionally, the result being the sequential run of
all layers. -/
theorem claimC2_amended_draw_per_layer
    (m : BranchformerEncoder T A M P) (training : Bool) (rng : ℕ → ℚ)
    (src : T) (src_mask src_key_padding_mask : Option M) (pos_embs : Option P)
    (hpe : m.attention_type = "RelPosMHAXL" → pos_embs.isSome = true) :
    ((m.forward training rng src src_mask src_key_padding_mask pos_embs
        none).map Prod.snd = .ok (drawCountOf m)) ∧
    (drawCountOf m = if 0 < m.layerdrop_prob then m.layers.length else 0) ∧
    (training = true → 0 < m.layerdrop_prob →
      m.forward training rng src src_mask src_key_padding_mask pos_embs none =
        .ok (encoderPack m src
              (specSelectedRun (fun i => decide (rng i > m.layerdrop_prob))
                (stepsOf m src_mask src_key_padding_mask pos_embs) src),
             m.layers.length)) ∧
    (training = false ∨ m.layerdrop_prob = 0 →
      m.forward training rng src src_mask src_key_padding_mask pos_embs none =
        .ok (encoderPack m src
              (specSequentialRun
                (stepsOf m src_mask src_key_padding_mask pos_embs) src),
             drawCountOf m)) := by
  refine ⟨?_, rfl, ?_, ?_⟩
  · rw [forward_eq_selected m training rng src src_mask src_key_padding_mask
      pos_embs hpe]
    rfl
  · intro ht hpos
    rw [forward_eq_selected m training rng src src_mask src_key_padding_mask
      pos_embs hpe]
    have hkp : keepProbsOf m rng =
        some ((List.range m.layers.length).map rng) := by
      rw [keepProbsOf, if_pos hpos]
    have hsel : selectFrom
        (layerExecutes training m.layerdrop_prob (keepProbsOf m rng)) 0
        (stepsOf m src_mask src_key_padding_mask pos_embs) =
      selectFrom (fun i => decide (rng i > m.layerdrop_prob)) 0
        (stepsOf m src_mask src_key_padding_mask pos_embs) := by
      apply selectFrom_congr
      intro j hj
      rw [Nat.zero_add, ht, hkp]
      exact layerExecutes_train_pos rng m.layerdrop_prob m.layers.length hpos
        (by simpa [stepsOf] using hj)
    have hdc : drawCountOf m = m.layers.length := by
      rw [drawCountOf, if_pos hpos]
    rw [specSelectedRun, specSelectedRun, hsel, hdc]
  · intro hdrop
    rw [forward_eq_selected m training rng src src_mask src_key_padding_mask
      pos_embs hpe]
    have hexec : ∀ j,
        layerExecutes training m.layerdrop_prob (keepProbsOf m rng) j = true := by
      intro j
      rcases hdrop with h | h
      · rw [h]; exact layerExecutes_of_not_training _ _ _
      · rw [h]; exact layerExecutes_of_zero _ _ _
    rw [specSelectedRun, selectFrom_of_forall_true _ hexec]

/-- C2 amended witness: a one-layer stack with `layerdrop_prob = 1/2`, in
training mode with a draw of 1 (> 1/2), executes its layer and consumes
exactly one draw; the same stack in eval mode with a draw of 0 (≤ 1/2)
still consumes one draw yet executes its layer unconditionally. -/
theorem claimC2_amended_witness :
    ((mC2.forward true (fun _ => (1 : ℚ)) 3 none none (none : Option ℕ)
        none).map Prod.snd = .ok (drawCountOf mC2)) ∧
    mC2.forward true (fun _ => (1 : ℚ)) 3 none none (none : Option ℕ) none =
      .ok ({ output := 4
             attention_lst := [some 0]
             hidden_state_lst := none }, 1) ∧
    mC2.forward false (fun _ => (0 : ℚ)) 3 none none (none : Option ℕ) none =
      .ok ({ output := 4
             attention_lst := [some 0]
             hidden_state_lst := none }, 1) := by
  obtain ⟨h1, -, h3, -⟩ := claimC2_amended_draw_per_layer mC2 true
    (fun _ => (1 : ℚ)) 3 none none none (fun h => by simp [mC2] at h)
  obtain ⟨-, -, -, h4⟩ := claimC2_amended_draw_per_layer mC2 false
    (fun _ => (0 : ℚ)) 3 none none (none : Option ℕ)
    (fun h => by simp [mC2] at h)
  refine ⟨h1, ?_, ?_⟩
  · rw [h3 rfl (by decide)]
    rfl
  · rw [h4 (Or.inl rfl)]
    rfl

/-- C3: a forward call equals the sequential run of just the layers whose
execution condition holds - a skipped layer is an identity passthrough,
the tensor handed to the next executing layer being the last executed
layer's output - with the shared final normalization applied to the last
produced tensor; in particular if every layer is skipped, the result is
the final normalization applied to the original input unchanged. -/
theorem claimC3_skipped_layers_are_identity
    (m : BranchformerEncoder T A M P) (training : Bool) (rng : ℕ → ℚ)
    (src : T) (src_mask src_key_padding_mask : Option M) (pos_embs : Option P)
    (hpe : m.attention_type = "RelPosMHAXL" → pos_embs.isSome = true) :
    (m.forward training rng src src_mask src_key_padding_mask pos_embs none =
      .ok (encoderPack m src
            (specSelectedRun
              (layerExecutes training m.layerdrop_prob (keepProbsOf m rng))
              (stepsOf m src_mask src_key_padding_mask pos_embs) src),
           drawCountOf m)) ∧
    ((∀ j, j < m.layers.length →
        layerExecutes training m.layerdrop_prob (keepProbsOf m rng) j = false) →
      m.forward training rng src src_mask src_key_padding_mask pos_embs none =
        .ok ({ output := m.norm src
               attention_lst := []
               hidden_state_lst :=
                 if m.output_hidden_states then some [src] else none },
             drawCountOf m)) := by
  refine ⟨forward_eq_selected m training rng src src_mask src_key_padding_mask
    pos_embs hpe, ?_⟩
  intro hall
  rw [forward_eq_selected m training rng src src_mask src_key_padding_mask
    pos_embs hpe]
  have hsel : selectFrom
      (layerExecutes training m.layerdrop_prob (keepProbsOf m rng)) 0
      (stepsOf m src_mask src_key_padding_mask pos_embs) = [] := by
    apply selectFrom_of_forall_false
    intro j hj
    rw [Nat.zero_add]
    exact hall j (by simpa [stepsOf] using hj)
  rw [specSelectedRun, hsel]
  rfl

/-- C3 witness: on a one-layer stack with `layerdrop_prob = 1/2`, training
with a draw of 0 (≤ 1/2) skips the only layer, and the result is the
final normalization of the unchanged input. -/
theorem claimC3_witness :
    mC4.forward true (fun _ => (0 : ℚ)) 9 none none (none : Option ℕ) none =
      .ok ({ output := 9
             attention_lst := []
             hidden_state_lst := some [9] }, 1) := by
  have h := (claimC3_skipped_layers_are_identity mC4 true (fun _ => (0 : ℚ))
    9 none none none (fun h => by simp [mC4] at h)).2 (by decide)
  rw [h]
  rfl

/-- C4 counterexample: the claim says every call with
`output_hidden_states = True` returns exactly `L + 1` hidden states; but
the source appends a hidden state only for layers that execute.  On a
one-layer stack with `layerdrop_prob = 1/2`, training, with a draw of 0
(≤ 1/2) the only layer is dropped and the hidden-state list has 1 entry,
not `L + 1 = 2`. -/
theorem claimC4_counterexample :
    mC4.forward true (fun _ => (0 : ℚ)) 3 none none (none : Option ℕ) none =
      .ok ({ output := 3
             attention_lst := []
             hidden_state_lst := some [3] }, 1) ∧
    ¬ ([(3 : ℕ)].length = mC4.layers.length + 1) :=
  ⟨rfl, by decide⟩

/-- C4 (amended): with `output_hidden_states = true`, the returned
hidden-state sequence has `1 + (number of executed layers)` entries -
which equals `L + 1` exactly when the stack is not training or
`layerdrop_prob = 0` - its first entry is the raw input, and every entry
has the input's shape whenever every layer preserves shape. -/
theorem claimC4_amended_hidden_states
    (m : BranchformerEncoder T A M P) (training : Bool) (rng : ℕ → ℚ)
    (src : T) (src_mask src_key_padding_mask : Option M) (pos_embs : Option P)
    (hohs : m.output_hidden_states = true)
    (hpe : m.attention_type = "RelPosMHAXL" → pos_embs.isSome = true) :
    ∃ lst : List T,
      (m.forward training rng src src_mask src_key_padding_mask pos_embs
          none).map (fun r => r.1.hidden_state_lst) = .ok (some lst) ∧
      lst.length = 1 + (selectFrom
        (layerExecutes training m.layerdrop_prob (keepProbsOf m rng)) 0
        (stepsOf m src_mask src_key_padding_mask pos_embs)).length ∧
      lst.head? = some src ∧
      ((training = false ∨ m.layerdrop_prob = 0) →
        lst.length = m.layers.length + 1) ∧
      (∀ (S : Type) (shape : T → S),
        (∀ f ∈ m.layers, ∀ (t : T) (a b : Option M) (c : Option P),
          shape (f t a b c).1 = shape t) →
        ∀ h ∈ lst, shape h = shape src) := by
  refine ⟨src :: (specSelectedRun
      (layerExecutes training m.layerdrop_prob (keepProbsOf m rng))
      (stepsOf m src_mask src_key_padding_mask pos_embs) src).2.2,
    ?_, ?_, rfl, ?_, ?_⟩
  · rw [forward_eq_selected m training rng src src_mask src_key_padding_mask
      pos_embs hpe]
    simp [encoderPack, hohs, Except.map]
  · rw [List.length_cons, specSelectedRun, specSequentialRun_hiddens_length,
      Nat.add_comm]
  · intro hdrop
    have hexec : ∀ j,
        layerExecutes training m.layerdrop_prob (keepProbsOf m rng) j = true := by
      intro j
      rcases hdrop with h | h
      · rw [h]; exact layerExecutes_of_not_training _ _ _
      · rw [h]; exact layerExecutes_of_zero _ _ _
    rw [List.length_cons, specSelectedRun, selectFrom_of_forall_true _ hexec,
      specSequentialRun_hiddens_length]
    simp [stepsOf]
  · intro S shape hpres h hmem
    rcases List.mem_cons.mp hmem with hmem | hmem
    · rw [hmem]
    · refine specSequentialRun_hiddens_shape shape _ ?_ src h hmem
      intro g hg t
      have hg' := mem_selectFrom _ _ _ _ hg
      rw [stepsOf] at hg'
      obtain ⟨f, hf, hfe⟩ := List.mem_map.mp hg'
      rw [← hfe]
      exact hpres f hf t src_mask src_key_padding_mask pos_embs

/-- C4 amended witness: a two-layer stack whose first layer executes
(draw 1 > 1/2) and whose second is dropped (draw 0 ≤ 1/2) returns a
hidden-state list whose first entry is the raw input. -/
theorem claimC4_amended_witness :
    ∃ lst : List ℕ,
      (mW4.forward true rngW4 17 none none (none : Option ℕ)
          none).map (fun r => r.1.hidden_state_lst) = .ok (some lst) ∧
      lst.head? = some 17 := by
  obtain ⟨lst, h1, -, h3, -, -⟩ := claimC4_amended_hidden_states mW4 true
    rngW4 17 none none none rfl (fun h => by simp [mW4] at h)
  exact ⟨lst, h1, h3⟩

/-- C5: on a stack configured with the `RelPosMHAXL` attention type, a
forward call with no positional embeddings fails before the layer loop -
no output tensor is produced - and, when no streaming config was passed,
the failure is precisely the missing-positional-embeddings error. -/
theorem claimC5_relpos_requires_pos_embs
    (m : BranchformerEncoder T A M P) (training : Bool) (rng : ℕ → ℚ)
    (src : T) (src_mask src_key_padding_mask : Option M)
    (dc : Option Unit) (h : m.attention_type = "RelPosMHAXL") :
    (∃ e, m.forward training rng src src_mask src_key_padding_mask
        (none : Option P) dc = .error e) ∧
    (dc = none →
      m.forward training rng src src_mask src_key_padding_mask
        (none : Option P) dc = .error .posEmbsMandatory) := by
  constructor
  · cases dc with
    | none =>
      refine ⟨.posEmbsMandatory, ?_⟩
      rw [BranchformerEncoder.forward]
      simp [h]
    | some u =>
      refine ⟨.dynChunkUnsupported, ?_⟩
      rw [BranchformerEncoder.forward]
      simp
  · rintro rfl
    rw [BranchformerEncoder.forward]
    simp [h]

/-- C5 witness: a concrete `RelPosMHAXL` stack called without positional
embeddings returns the missing-positional-embeddings error. -/
theorem claimC5_witness :
    mW5.forward false (fun _ => (0 : ℚ)) 3 none none (none : Option ℕ)
      none = .error .posEmbsMandatory :=
  (claimC5_relpos_requires_pos_embs mW5 false (fun _ => (0 : ℚ)) 3 none none
    none rfl).2 rfl

/-- C7: a forward call with a non-null streaming (dynchunktrain)
configuration fails with the unsupported-feature assertion, before any
layer computation, regardless of every other argument and setting. -/
theorem claimC7_dynchunk_always_fails
    (m : BranchformerEncoder T A M P) (training : Bool) (rng : ℕ → ℚ)
    (src : T) (src_mask src_key_padding_mask : Option M)
    (pos_embs : Option P) (u : Unit) :
    m.forward training rng src src_mask src_key_padding_mask pos_embs
      (some u) = .error .dynChunkUnsupported := by
  rw [BranchformerEncoder.forward]
  rfl

/-- The layer produced by `__init__` for an attention type outside the
recognized set: the dispatch chain falls through, so no global-mixing
cell and no merge projection are assigned, while `norm_mhsa` still is. -/
theorem init_invalid_attention_type (env : LayerEnv T A M P)
    (cfg : LayerConfig)
    (h1 : cfg.attention_type ≠ "regularMHA")
    (h2 : cfg.attention_type ≠ "RelPosMHAXL")
    (h3 : cfg.attention_type ≠ "hypermixing")
    (h4 : cfg.attention_type ≠ "SummaryMixing")
    (h5 : cfg.attention_type ≠ "fastattention")
    (h6 : cfg.attention_type ≠ "cnnonly") :
    BranchformerEncoderLayer.init env cfg =
      { attention_type := cfg.attention_type
        mha_qkv := none
        mha_sm := none
        merge_proj := none
        merge_spec := none
        norm_mhsa := some (env.layerNorm cfg.d_model)
        norm_conv := env.layerNorm cfg.d_model
        convolution_branch := env.convolutionBranch
        dropout := env.dropoutF } := by
  rw [BranchformerEncoderLayer.init]
  simp only [if_neg h6, if_neg h1, if_neg h2, if_neg h3, if_neg h4, if_neg h5]

/-- C6 counterexample: the claim says an attention type outside the
recognized set is a construction-time error; but the `__init__` dispatch
chain has no `else` arm and no `raise`, so constructing a layer with the
unrecognized tag "bogus" succeeds. -/
theorem claimC6_counterexample :
    ("bogus" ∉ validAttentionTypes) ∧
    exceptIsOk (BranchformerEncoderLayer.initE env0 cfgBogus) = true :=
  ⟨by decide, rfl⟩

/-- C6 (amended): constructing a `BranchformerEncoderLayer` (or the layer
list of a `BranchformerEncoder`) with an attention type outside the
recognized set does not raise; construction succeeds but assigns neither
the global-mixing cell nor the merge projection, and the first forward
call of such a layer fails with a missing-attribute error on
`mha_layer`. -/
theorem claimC6_amended_invalid_type_fails_at_forward
    (env : LayerEnv T A M P) (cfg : LayerConfig)
    (h : cfg.attention_type ∉ validAttentionTypes) :
    BranchformerEncoderLayer.initE env cfg =
      .ok (BranchformerEncoderLayer.init env cfg) ∧
    (BranchformerEncoderLayer.init env cfg).mha_qkv = none ∧
    (BranchformerEncoderLayer.init env cfg).mha_sm = none ∧
    (BranchformerEncoderLayer.init env cfg).merge_proj = none ∧
    (∀ (ops : TensorOps T) (x : T) (sm kpm : Option M) (pe : Option P),
      BranchformerEncoderLayer.forward ops (BranchformerEncoderLayer.init env cfg)
        x sm kpm pe = .error (.missingAttribute "mha_layer")) ∧
    (∀ n, ∀ l' ∈ BranchformerEncoder.initLayers env cfg n,
      l' = BranchformerEncoderLayer.init env cfg) := by
  obtain ⟨h1, h2, h3, h4, h5, h6⟩ :
      cfg.attention_type ≠ "regularMHA" ∧ cfg.attention_type ≠ "RelPosMHAXL" ∧
      cfg.attention_type ≠ "hypermixing" ∧ cfg.attention_type ≠ "SummaryMixing" ∧
      cfg.attention_type ≠ "fastattention" ∧ cfg.attention_type ≠ "cnnonly" := by
    simpa [validAttentionTypes] using h
  have hinit := init_invalid_attention_type env cfg h1 h2 h3 h4 h5 h6
  refine ⟨rfl, by rw [hinit], by rw [hinit], by rw [hinit], ?_, ?_⟩
  · intro ops x sm kpm pe
    rw [hinit, BranchformerEncoderLayer.forward]
    simp only [if_neg h6]
    rw [BranchformerEncoderLayer.forward_mha_branch]
    simp only [if_neg h4]
  · intro n l' hl'
    simp only [BranchformerEncoder.initLayers, List.mem_map] at hl'
    obtain ⟨i, -, hi⟩ := hl'
    exact hi.symm

/-- C6 amended witness: a concrete layer constructed with the
unrecognized tag "bogus" is built successfully and its first forward call
fails with the missing-attribute error on `mha_layer`. -/
theorem claimC6_amended_witness :
    BranchformerEncoderLayer.initE env0 cfgBogus =
      .ok (BranchformerEncoderLayer.init env0 cfgBogus) ∧
    BranchformerEncoderLayer.forward ops0
      (BranchformerEncoderLayer.init env0 cfgBogus) 3 none none
      (none : Option ℕ) = .error (.missingAttribute "mha_layer") := by
  obtain ⟨ha, -, -, -, hf, -⟩ :=
    claimC6_amended_invalid_type_fails_at_forward env0 cfgBogus (by decide)
  exact ⟨ha, hf ops0 3 none none none⟩

/-- C8: a layer with `attention_type = "cnnonly"` returns
`input + forward_cnn_branch input` (the convolution branch being
normalize-convolve-dropout) with an absent attention artifact, and the
result does not involve the global-mixing cell, the merge projection or
their normalization: replacing those attributes arbitrarily leaves the
output unchanged. -/
theorem claimC8_cnnonly_is_residual_conv
    (ops : TensorOps T) (l : BranchformerEncoderLayer T A M P) (x : T)
    (src_mask src_key_padding_mask : Option M) (pos_embs : Option P)
    (h : l.attention_type = "cnnonly") :
    (BranchformerEncoderLayer.forward ops l x src_mask src_key_padding_mask
        pos_embs = .ok (ops.add x (l.forward_cnn_branch x), none)) ∧
    l.forward_cnn_branch x = l.dropout (l.convolution_branch (l.norm_conv x)) ∧
    (∀ (q : Option (T → T → T → Option M → Option M → Option P →
          T × Option A))
       (s : Option (T → Option M → T)) (mp nm : Option (T → T))
       (ms : Option MergeSpec),
      BranchformerEncoderLayer.forward ops
        { l with mha_qkv := q, mha_sm := s, merge_proj := mp,
                 norm_mhsa := nm, merge_spec := ms }
        x src_mask src_key_padding_mask pos_embs =
      .ok (ops.add x (l.forward_cnn_branch x), none)) := by
  refine ⟨?_, rfl, ?_⟩
  · rw [BranchformerEncoderLayer.forward, if_pos h]
  · intro q s mp nm ms
    rw [BranchformerEncoderLayer.forward]
    exact if_pos h

/-- C8 witness: a concrete `cnnonly` layer on input 3 returns
`3 + dropout (conv (norm 3)) = 16` with attention artifact `none`. -/
theorem claimC8_witness :
    BranchformerEncoderLayer.forward ops0 l0 3 none none (none : Option ℕ) =
      .ok (16, none) := by
  have h := (claimC8_cnnonly_is_residual_conv ops0 l0 3 none none none rfl).1
  rw [h]
  rfl

/-- C9: in every constructed layer with a merge projection, the merge
projection's input width is the sum of the two concatenated branch
widths and its output width is `d_model`; for SummaryMixing it is a
multi-layer `VanillaNN` with block sizes `summary_hid_dim ++ [d_model]`
and input width `local_proj_out_dim + summary_out_dim`, for the
attention-like strategies a single linear layer from `2 * d_model` to
`d_model`. -/
theorem claimC9_merge_projection_widths
    (env : LayerEnv T A M P) (cfg : LayerConfig) :
    (cfg.attention_type = "regularMHA" ∨ cfg.attention_type = "RelPosMHAXL" ∨
     cfg.attention_type = "hypermixing" ∨ cfg.attention_type = "fastattention" →
      (BranchformerEncoderLayer.init env cfg).merge_spec =
        some (.linear (cfg.d_model * 2) cfg.d_model)) ∧
    (cfg.attention_type = "SummaryMixing" →
      (BranchformerEncoderLayer.init env cfg).merge_spec =
        some (.vanillaNN (cfg.local_proj_out_dim + cfg.summary_out_dim)
          (cfg.summary_hid_dim ++ [cfg.d_model]))) ∧
    (∀ ms, (BranchformerEncoderLayer.init env cfg).merge_spec = some ms →
      ms.inWidth = (branchOutWidths cfg).1 + (branchOutWidths cfg).2 ∧
      ms.outWidth = cfg.d_model) := by
  refine ⟨?_, ?_, ?_⟩
  · rintro (h | h | h | h) <;> simp [BranchformerEncoderLayer.init, h]
  · intro h
    simp [BranchformerEncoderLayer.init, h]
  · intro ms hms
    by_cases h1 : cfg.attention_type = "regularMHA"
    · simp [BranchformerEncoderLayer.init, h1] at hms
      subst hms
      refine ⟨?_, rfl⟩
      rw [branchOutWidths, if_neg (by rw [h1]; decide)]
      show cfg.d_model * 2 = cfg.d_model + cfg.d_model
      omega
    · by_cases h2 : cfg.attention_type = "RelPosMHAXL"
      · simp [BranchformerEncoderLayer.init, h2] at hms
        subst hms
        refine ⟨?_, rfl⟩
        rw [branchOutWidths, if_neg (by rw [h2]; decide)]
        show cfg.d_model * 2 = cfg.d_model + cfg.d_model
        omega
      · by_cases h3 : cfg.attention_type = "hypermixing"
        · simp [BranchformerEncoderLayer.init, h3] at hms
          subst hms
          refine ⟨?_, rfl⟩
          rw [branchOutWidths, if_neg (by rw [h3]; decide)]
          show cfg.d_model * 2 = cfg.d_model + cfg.d_model
          omega
        · by_cases h4 : cfg.attention_type = "SummaryMixing"
          · simp [BranchformerEncoderLayer.init, h4] at hms
            subst hms
            refine ⟨?_, ?_⟩
            · rw [branchOutWidths, if_pos h4]
              rfl
            · show (cfg.summary_hid_dim ++ [cfg.d_model]).getLastD 0 =
                cfg.d_model
              exact List.getLastD_concat _ _ _
          · by_cases h5 : cfg.attention_type = "fastattention"
            · simp [BranchformerEncoderLayer.init, h5] at hms
              subst hms
              refine ⟨?_, rfl⟩
              rw [branchOutWidths, if_neg (by rw [h5]; decide)]
              show cfg.d_model * 2 = cfg.d_model + cfg.d_model
              omega
            · by_cases h6 : cfg.attention_type = "cnnonly"
              · simp [BranchformerEncoderLayer.init, h6] at hms
              · simp [BranchformerEncoderLayer.init, h1, h2, h3, h4, h5, h6]
                  at hms

/-- C9 witness: the concrete SummaryMixing configuration (d_model 4,
local 2, summary 3, hidden [7]) yields a `VanillaNN` merge of input
width 5 = 2 + 3 and blocks [7, 4] (output width 4), and the concrete
regularMHA configuration yields a linear merge from 8 to 4. -/
theorem claimC9_witness :
    (BranchformerEncoderLayer.init env0 cfgSM).merge_spec =
      some (.vanillaNN 5 [7, 4]) ∧
    (MergeSpec.vanillaNN 5 [7, 4]).inWidth = 2 + 3 ∧
    (MergeSpec.vanillaNN 5 [7, 4]).outWidth = 4 ∧
    (BranchformerEncoderLayer.init env0 cfgMHA).merge_spec =
      some (.linear 8 4) := by
  have hsm := (claimC9_merge_projection_widths env0 cfgSM).2.1 rfl
  have hmha := (claimC9_merge_projection_widths env0 cfgMHA).1 (Or.inl rfl)
  have hw := (claimC9_merge_projection_widths env0 cfgSM).2.2
    (.vanillaNN 5 [7, 4]) hsm
  exact ⟨hsm, hw.1, hw.2, hmha⟩

/-- C10: the convolution-branch contribution is computed without reading
the attention mask or the key-padding mask: its formula mentions only the
input tensor, a `cnnonly` layer's whole output is mask-invariant, and in
general two forward calls differing only in the masks coincide whenever
their attention branches coincide - the convolution branch introduces no
mask dependence. -/
theorem claimC10_cnn_branch_ignores_masks
    (ops : TensorOps T) (l : BranchformerEncoderLayer T A M P) (x : T)
    (sm1 kpm1 sm2 kpm2 : Option M) (pos_embs : Option P) :
    l.forward_cnn_branch x = l.dropout (l.convolution_branch (l.norm_conv x)) ∧
    (l.attention_type = "cnnonly" →
      BranchformerEncoderLayer.forward ops l x sm1 kpm1 pos_embs =
        BranchformerEncoderLayer.forward ops l x sm2 kpm2 pos_embs) ∧
    (l.forward_mha_branch x sm1 kpm1 pos_embs =
        l.forward_mha_branch x sm2 kpm2 pos_embs →
      BranchformerEncoderLayer.forward ops l x sm1 kpm1 pos_embs =
        BranchformerEncoderLayer.forward ops l x sm2 kpm2 pos_embs) := by
  refine ⟨rfl, ?_, ?_⟩
  · intro h
    rw [BranchformerEncoderLayer.forward, BranchformerEncoderLayer.forward,
      if_pos h, if_pos h]
  · intro h
    by_cases hc : l.attention_type = "cnnonly"
    · rw [BranchformerEncoderLayer.forward, BranchformerEncoderLayer.forward,
        if_pos hc, if_pos hc]
    · rw [BranchformerEncoderLayer.forward, BranchformerEncoderLayer.forward,
        if_neg hc, if_neg hc, h]

/-- C10 witness: on a concrete layer, two forward calls that differ only
in both masks produce the same result, and the convolution-branch value
evaluates concretely. -/
theorem claimC10_witness :
    BranchformerEncoderLayer.forward ops0 l0 3 (some 0) (some 0)
        (none : Option ℕ) =
      BranchformerEncoderLayer.forward ops0 l0 3 (some 1) (some 1) none ∧
    l0.forward_cnn_branch 3 = 13 :=
  ⟨(claimC10_cnn_branch_ignores_masks ops0 l0 3 (some 0) (some 0) (some 1)
      (some 1) none).2.1 rfl, rfl⟩

end Branchformer
